import Mathlib

/-!
Shallow embedding of the bulk-download-and-extract engine of
`tornado_helper` (`tornado_helper/Helper.py`): the `download` method
(aria2c orchestration, locator resolution, temp descriptor file,
progress parsing of the worker's output stream) and the `unzip` method
(per-file archive extraction with graceful per-file failure handling).

Strings are modelled by Lean `String`/`List Char`; the Python library
functions the code calls (`str.endswith`, `urllib.parse.urlparse`,
`os.path.basename`, `os.path.join`) are modelled faithfully below.
Filesystem activity is modelled as an explicit event trace; the
environment of one `download` call (presence of aria2c on the path,
current working directory, the name tempfile hands out, whether
spawning the worker raises OSError, the worker's output lines and exit
status, and the content found at each local path during extraction) is
a `DlWorld` record.
-/

namespace TornadoHelper

/-- Model of Python `str` prefix test over character lists. -/
def isPref : List Char → List Char → Bool
  | [], _ => true
  | _ :: _, [] => false
  | a :: as, b :: bs => a == b && isPref as bs

/-- Model of Python `str.endswith` (suffix test) over character lists. -/
def isSuf (p s : List Char) : Bool := isPref p.reverse s.reverse

/-- Model of Python `str.endswith`. -/
def strEndsWith (s suf : String) : Bool := isSuf suf.data s.data

/-- Model of Python `in` on strings: `p` occurs as a contiguous substring. -/
def containsSub (p : List Char) : List Char → Bool
  | [] => isPref p []
  | c :: cs => isPref p (c :: cs) || containsSub p cs

/-- A worker output line matches when it contains the literal marker
`Download complete:` (the substring test in `Helper.download`). -/
def hasMarker (line : String) : Bool := containsSub "Download complete:".data line.data

/-- Characters Python's `urlsplit` accepts inside a URL scheme. -/
def isSchemeChar (c : Char) : Bool := c.isAlpha || c.isDigit || c == '+' || c == '-' || c == '.'

/-- Model of the scheme-stripping step of Python `urlsplit`: when the text
before the first `:` is a wellformed scheme (nonempty, first char a letter,
all chars scheme characters), drop it together with the colon. -/
def dropScheme (s : List Char) : List Char :=
  match s.takeWhile (fun c => c != ':') with
  | [] => s
  | c0 :: rest =>
    if (c0 :: rest).length < s.length ∧ c0.isAlpha ∧ (c0 :: rest).all isSchemeChar then
      s.drop ((c0 :: rest).length + 1)
    else s

/-- Model of the netloc-stripping step of Python `urlsplit`: when the text
starts with `//`, the netloc extends to the first of `/`, `?`, `#`. -/
def dropNetloc (s : List Char) : List Char :=
  match s with
  | '/' :: '/' :: rest => rest.dropWhile (fun c => !(c == '/' || c == '?' || c == '#'))
  | _ => s

/-- Model of `urllib.parse.urlparse(link).path`: strip scheme, netloc,
fragment (after first `#`) and query (after first `?`). -/
def urlparsePath (s : List Char) : List Char :=
  (((dropNetloc (dropScheme s)).takeWhile (fun c => c != '#')).takeWhile (fun c => c != '?'))

/-- Model of `os.path.basename` (posix): the text after the last `/`. -/
def basenameL (p : List Char) : List Char := (p.reverse.takeWhile (fun c => c != '/')).reverse

/-- Whether a character list ends in `/`. -/
def endsWithSlash : List Char → Bool
  | [] => false
  | [c] => c == '/'
  | _ :: rest => endsWithSlash rest

/-- Model of `os.path.join` (posix) on two components. -/
def joinL (a b : List Char) : List Char :=
  match b with
  | '/' :: _ => b
  | _ => if a.isEmpty || endsWithSlash a then a ++ b else a ++ '/' :: b

/-- `os.path.join` on strings. -/
def os_path_join (a b : String) : String := String.mk (joinL a.data b.data)

/-- `os.path.basename` on strings. -/
def basename (p : String) : String := String.mk (basenameL p.data)

/-- `urlparse(link).path` on strings. -/
def urlPath (link : String) : String := String.mk (urlparsePath link.data)

/-- The expected local file path computed by `Helper.download` for one
resolved link: `os.path.join(download_dir, os.path.basename(urlparse(link).path))`. -/
def targetPath (dir link : String) : String := os_path_join dir (basename (urlPath link))

/-- `Helper.__DEFAULT_PROXY_URL`. -/
def DEFAULT_PROXY_URL : String := "https://bbproxy.meyerstk.com"

/-- The locator-resolution step at the top of `Helper.download`:
`if bucket: links = [f"{proxy}/file/{bucket}/{link}" for link in links]`.
Python truthiness: `None` and the empty string both skip the rewrite. -/
def resolveLinks (bucket : Option String) (links : List String) : List String :=
  match bucket with
  | none => links
  | some b =>
    if b = "" then links
    else links.map (fun link => DEFAULT_PROXY_URL ++ "/file/" ++ b ++ "/" ++ link)

/-- Filesystem events a call can perform. -/
inductive FsEvent where
  | createTemp (name : String)
  | removeFile (path : String)
  | writeFile (path : String)
  deriving DecidableEq

/-- One member of a tar archive: its name and whether `member.isfile()`. -/
structure TarMember where
  name : String
  isfile : Bool
  deriving DecidableEq

/-- What `Helper.unzip` finds when it opens a local path: a readable zip
archive (its `namelist()`), a readable gzipped tar archive (its
`getmembers()`), or content whose extraction raises (corrupt archive or
I/O error), possibly after some partial writes. -/
inductive FileContent where
  | zipOk (names : List String)
  | tarOk (members : List TarMember)
  | raisesOnExtract (attemptedWrites : List String)
  deriving DecidableEq

/-- One loop iteration of `Helper.unzip` on one input path: returns the
collected paths and the filesystem events.  Dispatch is on the filename
suffix; any exception inside the `try` block is caught, so a failing file
contributes no paths and is not removed. -/
def processFile (fs : String → FileContent) (output_dir : String) (p : String) :
    List String × List FsEvent :=
  if strEndsWith p ".zip" then
    match fs p with
    | FileContent.zipOk names =>
      let paths := names.map (fun n => os_path_join output_dir n)
      (paths, paths.map FsEvent.writeFile ++ [FsEvent.removeFile p])
    | FileContent.raisesOnExtract aw => ([], aw.map FsEvent.writeFile)
    | _ => ([], [])
  else if strEndsWith p ".tar.gz" || strEndsWith p ".tgz" then
    match fs p with
    | FileContent.tarOk members =>
      (((members.filter (fun m => m.isfile)).map (fun m => os_path_join output_dir m.name)),
       (members.map (fun m => FsEvent.writeFile (os_path_join output_dir m.name))) ++
         [FsEvent.removeFile p])
    | FileContent.raisesOnExtract aw => ([], aw.map FsEvent.writeFile)
    | _ => ([], [])
  else ([p], [])

/-- `Helper.unzip`: fold of `processFile` over the input list, collecting
extracted paths in input order together with the filesystem events. -/
def unzip (fs : String → FileContent) (files : List String) (output_dir : String) :
    List String × List FsEvent :=
  match files with
  | [] => ([], [])
  | p :: rest =>
    let r1 := processFile fs output_dir p
    let r2 := unzip fs rest output_dir
    (r1.1 ++ r2.1, r1.2 ++ r2.2)

/-- Errors a `download` call can raise: the `RuntimeError` from
`_check_dependency` when the executable is not on the path, and the
`OSError` `subprocess.Popen` can raise when spawning the worker fails. -/
inductive DlError where
  | dependencyMissing (dep : String)
  | popenOSError
  deriving DecidableEq

/-- Environment of one `download` call. -/
structure DlWorld where
  aria2cOnPath : Bool
  cwd : String
  tempName : String
  popenRaises : Bool
  workerLines : List String
  workerExit : Nat
  fs : String → FileContent

/-- Outcome of one `download` call: result or raised error, the filesystem
event trace, and the sequence of tqdm progress states
`(completedCount, totalCount)` emitted by `pbar.update(1)`. -/
structure DlOutcome where
  result : Except DlError (List String)
  events : List FsEvent
  progress : List (Nat × Nat)

/-- Progress loop of `Helper.download`: scanning the worker's combined
output stream line by line, each line containing the marker advances the
completed count by one. -/
def progressGo (total : Nat) : Nat → List String → List (Nat × Nat)
  | _, [] => []
  | k, l :: rest =>
    if hasMarker l then (k + 1, total) :: progressGo total (k + 1) rest
    else progressGo total k rest

/-- The whole progress trace of one call (`tqdm` starts at 0 with
`total = len(links)`). -/
def progressTrace (total : Nat) (lines : List String) : List (Nat × Nat) :=
  progressGo total 0 lines

/-- The directory `Helper.download` resolves paths against:
`download_dir = output_dir if output_dir else os.getcwd()` — Python
truthiness, so both `None` and the empty string fall back to the
current working directory. -/
def effectiveDir (cwd : String) (output_dir : Option String) : String :=
  match output_dir with
  | some d => if d = "" then cwd else d
  | none => cwd

/-- `Helper.download`, translated step by step:
1. `_check_dependency("aria2c")` raises when the executable is absent,
   before anything is written;
2. bucket resolution (`resolveLinks`);
3. the temp locator file is created (`NamedTemporaryFile(delete=False)`);
4. the worker is spawned — when `Popen` raises, the exception propagates
   and nothing removes the temp file (the `except` clauses only re-raise);
5. the output stream is scanned for `Download complete:` markers;
   `process.wait()` is called but its exit status is never inspected;
6. the temp file is removed, expected local paths are computed, and when
   the `unzip` flag is set they are passed through `Helper.unzip`. -/
def download (w : DlWorld) (links : List String) (bucket : Option String)
    (output_dir : Option String) (unzipFlag : Bool) : DlOutcome :=
  if !w.aria2cOnPath then
    { result := Except.error (DlError.dependencyMissing "aria2c"), events := [], progress := [] }
  else
    let resolved := resolveLinks bucket links
    if w.popenRaises then
      { result := Except.error DlError.popenOSError,
        events := [FsEvent.createTemp w.tempName], progress := [] }
    else
      let progress := progressTrace resolved.length w.workerLines
      let evs := [FsEvent.createTemp w.tempName, FsEvent.removeFile w.tempName]
      let download_dir := effectiveDir w.cwd output_dir
      let downloaded := resolved.map (fun link => targetPath download_dir link)
      if unzipFlag then
        let r := unzip w.fs downloaded download_dir
        { result := Except.ok r.1, events := evs ++ r.2, progress := progress }
      else
        { result := Except.ok downloaded, events := evs, progress := progress }

/-- One step of replaying the event trace for the existence of the file
`name`: creation and removal toggle it, writes into the output directory
leave the (system temp dir) descriptor file alone. -/
def tempStep (name : String) (st : Bool) (e : FsEvent) : Bool :=
  match e with
  | FsEvent.createTemp n => if n = name then true else st
  | FsEvent.removeFile n => if n = name then false else st
  | FsEvent.writeFile _ => st

/-- Existence of the temp descriptor file at the end of a call, read off
the event trace (the file does not exist before the call). -/
def tempStatus (events : List FsEvent) (name : String) : Bool :=
  events.foldl (tempStep name) false

/-- The expected-path list as the spec phrases it: joined against the
given output directory, falling back to the working directory only when
none was given. -/
def specExpectedPaths (cwd : String) (output_dir : Option String)
    (resolved : List String) : List String :=
  resolved.map (fun link =>
    os_path_join (match output_dir with | some d => d | none => cwd)
      (basename (urlPath link)))

/-- A call environment whose worker prints no completion marker and
exits with status 1. -/
def exitOneWorld : DlWorld where
  aria2cOnPath := true
  cwd := "/work"
  tempName := "/tmp/aria-links-0"
  popenRaises := false
  workerLines := ["aria2c: download failed"]
  workerExit := 1
  fs := fun _ => FileContent.raisesOnExtract []

/-- A call environment in which spawning the worker raises `OSError`. -/
def spawnFailWorld : DlWorld where
  aria2cOnPath := true
  cwd := "/work"
  tempName := "/tmp/aria-links-1"
  popenRaises := true
  workerLines := []
  workerExit := 0
  fs := fun _ => FileContent.raisesOnExtract []

/-- A healthy call environment: worker emits two completion markers among
other chatter and exits 0. -/
def okWorld : DlWorld where
  aria2cOnPath := true
  cwd := "/work"
  tempName := "/tmp/aria-links-2"
  popenRaises := false
  workerLines := ["[#1 0B/0B]", "Download complete: /work/a.csv", "Download complete: /work/b.csv"]
  workerExit := 0
  fs := fun _ => FileContent.raisesOnExtract []

/-- A call environment without aria2c on the execution path. -/
def noAriaWorld : DlWorld where
  aria2cOnPath := false
  cwd := "/work"
  tempName := "/tmp/aria-links-3"
  popenRaises := false
  workerLines := []
  workerExit := 0
  fs := fun _ => FileContent.raisesOnExtract []

/-- A healthy call environment whose worker emits two completion markers
for a two-locator batch. -/
def markerWorld : DlWorld where
  aria2cOnPath := true
  cwd := "/work"
  tempName := "/tmp/aria-links-4"
  popenRaises := false
  workerLines := ["[DL:2MiB]", "Download complete: /work/f.csv", "Download complete: /work/g.csv", "(OK):done"]
  workerExit := 0
  fs := fun _ => FileContent.raisesOnExtract []

/-- A healthy call environment used to evaluate expected-path computation. -/
def pathWorld : DlWorld where
  aria2cOnPath := true
  cwd := "/home/user"
  tempName := "/tmp/aria-links-5"
  popenRaises := false
  workerLines := []
  workerExit := 0
  fs := fun _ => FileContent.raisesOnExtract []

/-- A healthy call environment with working directory `/work`, used to
exercise the empty-string output directory. -/
def emptyDirWorld : DlWorld where
  aria2cOnPath := true
  cwd := "/work"
  tempName := "/tmp/aria-links-6"
  popenRaises := false
  workerLines := []
  workerExit := 0
  fs := fun _ => FileContent.raisesOnExtract []

/-- A healthy call environment used to exercise basename collisions. -/
def dupWorld : DlWorld where
  aria2cOnPath := true
  cwd := "/work"
  tempName := "/tmp/aria-links-7"
  popenRaises := false
  workerLines := []
  workerExit := 0
  fs := fun _ => FileContent.raisesOnExtract []

/-- Local content map that never yields a readable archive. -/
def plainFs : String → FileContent := fun _ => FileContent.raisesOnExtract []

/-- Local content map with one corrupt tar archive among plain files. -/
def corruptTarFs : String → FileContent :=
  fun p => if p = "bad.tar.gz" then FileContent.raisesOnExtract []
    else FileContent.zipOk []

/-- Local content map with one readable zip and one readable tar archive. -/
def archFs : String → FileContent :=
  fun p =>
    if p = "arc.zip" then FileContent.zipOk ["a.txt", "b.txt"]
    else if p = "arc.tgz" then
      FileContent.tarOk [{ name := "d", isfile := false }, { name := "d/c.txt", isfile := true }]
    else FileContent.raisesOnExtract []

/-! ### Shared lemmas about the embedded operations -/

theorem isPref_head {a b : Char} {as bs s : List Char}
    (h1 : isPref (a :: as) s = true) (h2 : isPref (b :: bs) s = true) : a = b := by
  cases s with
  | nil => simp [isPref] at h1
  | cons c cs =>
    simp [isPref] at h1 h2
    exact h1.1.trans h2.1.symm

theorem not_zip_of_tar (p : String) (h : strEndsWith p ".tar.gz" = true) :
    strEndsWith p ".zip" = false := by
  cases hz : strEndsWith p ".zip" with
  | false => rfl
  | true =>
    have h1 : isPref ('z' :: ['g', '.', 'r', 'a', 't', '.']) p.data.reverse = true := h
    have h2 : isPref ('p' :: ['i', 'z', '.']) p.data.reverse = true := hz
    exact absurd (isPref_head h1 h2) (by decide)

theorem not_zip_of_tgz (p : String) (h : strEndsWith p ".tgz" = true) :
    strEndsWith p ".zip" = false := by
  cases hz : strEndsWith p ".zip" with
  | false => rfl
  | true =>
    have h1 : isPref ('z' :: ['g', 't', '.']) p.data.reverse = true := h
    have h2 : isPref ('p' :: ['i', 'z', '.']) p.data.reverse = true := hz
    exact absurd (isPref_head h1 h2) (by decide)

theorem unzip_append (fs : String → FileContent) (d : String) (xs ys : List String) :
    unzip fs (xs ++ ys) d =
      ((unzip fs xs d).1 ++ (unzip fs ys d).1, (unzip fs xs d).2 ++ (unzip fs ys d).2) := by
  induction xs with
  | nil => simp [unzip]
  | cons p rest ih => simp [unzip, ih]

theorem resolveLinks_length (bucket : Option String) (links : List String) :
    (resolveLinks bucket links).length = links.length := by
  cases bucket with
  | none => rfl
  | some b =>
    by_cases hb : b = "" <;> simp [resolveLinks, hb]

theorem progressGo_length (total k : Nat) (lines : List String) :
    (progressGo total k lines).length = (lines.filter hasMarker).length := by
  induction lines generalizing k with
  | nil => rfl
  | cons l rest ih =>
    by_cases h : hasMarker l <;> simp [progressGo, h, List.filter_cons, ih]

theorem progressGo_get (total : Nat) (lines : List String) (k i : Nat)
    (h : i < (lines.filter hasMarker).length) :
    (progressGo total k lines).get? i = some (k + i + 1, total) := by
  induction lines generalizing k i with
  | nil => simp at h
  | cons l rest ih =>
    by_cases hm : hasMarker l
    · cases i with
      | zero => simp [progressGo, hm]
      | succ n =>
        have h2 : n < (rest.filter hasMarker).length := by
          rw [List.filter_cons_of_pos] at h
          · simpa using h
          · exact hm
        have hred : progressGo total k (l :: rest) = (k + 1, total) :: progressGo total (k + 1) rest := by
          simp [progressGo, hm]
        rw [hred, List.get?_cons_succ, ih (k + 1) n h2]
        simp only [Option.some.injEq, Prod.mk.injEq]
        exact ⟨by omega, by simp⟩
    · have hred : progressGo total k (l :: rest) = progressGo total k rest := by
        simp [progressGo, hm]
      rw [hred]
      refine ih k i ?_
      rw [List.filter_cons_of_neg] at h
      · exact h
      · simpa using hm

theorem removeFile_processFile (fs : String → FileContent) (d q r : String)
    (h : FsEvent.removeFile r ∈ (processFile fs d q).2) : r = q := by
  unfold processFile at h
  split at h
  · split at h <;> simp at h
    exact h
  · split at h
    · split at h <;> simp at h
      exact h
    · simp at h

theorem removeFile_unzip (fs : String → FileContent) (d : String) (files : List String)
    (r : String) (h : FsEvent.removeFile r ∈ (unzip fs files d).2) :
    ∃ q, q ∈ files ∧ FsEvent.removeFile r ∈ (processFile fs d q).2 := by
  induction files with
  | nil => simp [unzip] at h
  | cons p rest ih =>
    simp only [unzip, List.mem_append] at h
    cases h with
    | inl h => exact ⟨p, List.mem_cons_self p rest, h⟩
    | inr h =>
      obtain ⟨q, hq, hmem⟩ := ih h
      exact ⟨q, List.mem_cons_of_mem p hq, hmem⟩

theorem processFile_raises_tar (fs : String → FileContent) (d p : String) (aw : List String)
    (harch : strEndsWith p ".tar.gz" = true)
    (hfs : fs p = FileContent.raisesOnExtract aw) :
    processFile fs d p = ([], aw.map FsEvent.writeFile) := by
  simp [processFile, not_zip_of_tar p harch, harch, hfs]

theorem no_createTemp_processFile (fs : String → FileContent) (d q n : String) :
    FsEvent.createTemp n ∉ (processFile fs d q).2 := by
  unfold processFile
  split
  · split <;> simp
  · split
    · split <;> simp
    · simp

theorem tempStep_foldl_false (name : String) (events : List FsEvent)
    (h : FsEvent.createTemp name ∉ events) :
    events.foldl (tempStep name) false = false := by
  induction events with
  | nil => rfl
  | cons e rest ih =>
    have hne : e ≠ FsEvent.createTemp name := fun he => h (he ▸ List.mem_cons_self e rest)
    have hrest : FsEvent.createTemp name ∉ rest := fun hm => h (List.mem_cons_of_mem e hm)
    have hstep : tempStep name false e = false := by
      cases e with
      | createTemp m =>
        have : m ≠ name := fun hm => hne (by rw [hm])
        simp [tempStep, this]
      | removeFile m => simp [tempStep]
      | writeFile m => rfl
    rw [List.foldl_cons, hstep, ih hrest]

theorem no_createTemp_unzip (fs : String → FileContent) (d : String) (files : List String)
    (n : String) : FsEvent.createTemp n ∉ (unzip fs files d).2 := by
  induction files with
  | nil => simp [unzip]
  | cons p rest ih =>
    simp only [unzip, List.mem_append]
    rintro (h | h)
    · exact no_createTemp_processFile fs d p n h
    · exact ih h

/-! ### Claim theorems -/

/-- C1: the claim says a non-zero worker exit makes `download` raise
`DownloadFailed` carrying the exit code.  The code calls `process.wait()`
but never inspects the exit status (its `except CalledProcessError`
handler is dead code under `Popen`), so a worker that exits with status 1
still produces the normal result list.  This theorem evaluates the
embedded code at that failing input: the exit code is 1, yet the call
returns `Except.ok` with the expected-path list instead of an error. -/
theorem C1_nonzero_exit_ignored :
    exitOneWorld.workerExit = 1 ∧
    (download exitOneWorld ["https://example.com/storm.csv"] none none false).result =
      Except.ok ["/work/storm.csv"] :=
  ⟨rfl, rfl⟩

/-- C2 counterexample: when spawning the worker raises (an `OSError` out
of `subprocess.Popen`), `download` propagates the exception — the
`except` clauses only log and re-raise, and there is no `finally` — so
the temporary locator file is still on disk after the call fails. -/
theorem C2_temp_file_survives_spawn_failure :
    (download spawnFailWorld ["https://example.com/a.txt"] none none true).result =
      Except.error DlError.popenOSError ∧
    tempStatus (download spawnFailWorld ["https://example.com/a.txt"] none none true).events
      spawnFailWorld.tempName = true :=
  ⟨rfl, rfl⟩

/-- C2 amended: on every call on which the worker process is successfully
spawned (and trivially on calls stopped by the dependency check, which
never create the file), the temporary locator file no longer exists when
the call returns; only the spawn-failure exception path leaks it. -/
theorem C2_temp_file_removed (w : DlWorld) (links : List String)
    (bucket output_dir : Option String) (u : Bool) (hp : w.popenRaises = false) :
    tempStatus (download w links bucket output_dir u).events w.tempName = false := by
  by_cases hd : w.aria2cOnPath
  · cases u with
    | false => simp [download, hd, hp, tempStatus, tempStep]
    | true =>
      have hev : (download w links bucket output_dir true).events =
          [FsEvent.createTemp w.tempName, FsEvent.removeFile w.tempName] ++
            (unzip w.fs ((resolveLinks bucket links).map
              (fun link => targetPath (effectiveDir w.cwd output_dir) link))
              (effectiveDir w.cwd output_dir)).2 := by
        simp [download, hd, hp]
      rw [tempStatus, hev, List.foldl_append]
      have hstart : List.foldl (tempStep w.tempName) false
          [FsEvent.createTemp w.tempName, FsEvent.removeFile w.tempName] = false := by
        simp [tempStep]
      rw [hstart]
      exact tempStep_foldl_false w.tempName _ (no_createTemp_unzip w.fs _ _ w.tempName)
  · have hd2 : w.aria2cOnPath = false := by
      cases hx : w.aria2cOnPath
      · rfl
      · exact absurd hx hd
    simp [download, hd2, tempStatus]

/-- C2 amended, witness: a healthy concrete call leaves no temp file. -/
theorem C2_witness :
    tempStatus (download okWorld ["https://example.com/a.csv"] none none true).events
      okWorld.tempName = false :=
  C2_temp_file_removed okWorld ["https://example.com/a.csv"] none none true rfl

/-- C3: a file whose extraction raises (here a corrupt `.tar.gz`) is
caught without aborting the batch: the returned list is exactly the
concatenation of what the files before and after it produce (the failed
file contributes no path, is not passed through and not retried), and no
`removeFile` event for the failed archive occurs, so it stays on disk. -/
theorem C3_per_file_isolation (fs : String → FileContent) (d : String)
    (xs ys : List String) (p : String) (aw : List String)
    (harch : strEndsWith p ".tar.gz" = true)
    (hfs : fs p = FileContent.raisesOnExtract aw) :
    (unzip fs (xs ++ p :: ys) d).1 = (unzip fs xs d).1 ++ (unzip fs ys d).1 ∧
    FsEvent.removeFile p ∉ (unzip fs (xs ++ p :: ys) d).2 := by
  have hpf := processFile_raises_tar fs d p aw harch hfs
  constructor
  · rw [unzip_append]
    simp [unzip, hpf]
  · intro hmem
    obtain ⟨q, hq, hmem2⟩ := removeFile_unzip fs d _ p hmem
    have hpq : p = q := removeFile_processFile fs d q p hmem2
    rw [← hpq, hpf] at hmem2
    simp at hmem2

/-- C3 witness: one corrupt `.tar.gz` between two plain files — the batch
result is the two passthrough paths and the archive is not deleted. -/
theorem C3_witness :
    (unzip corruptTarFs (["a.txt"] ++ "bad.tar.gz" :: ["b.txt"]) "out").1 =
      (unzip corruptTarFs ["a.txt"] "out").1 ++ (unzip corruptTarFs ["b.txt"] "out").1 ∧
    FsEvent.removeFile "bad.tar.gz" ∉
      (unzip corruptTarFs (["a.txt"] ++ "bad.tar.gz" :: ["b.txt"]) "out").2 :=
  C3_per_file_isolation corruptTarFs "out" ["a.txt"] ["b.txt"] "bad.tar.gz" []
    (by decide) rfl

/-- C4 counterexample: the claim says every present bucket `B` rewrites
every locator to `<proxy>/file/<B>/<locator>`.  With the present-but-empty
bucket `""`, Python truthiness (`if bucket:`) skips the rewrite and the
locator list is returned unchanged, not rewritten under the proxy URL. -/
theorem C4_empty_bucket_not_rewritten :
    resolveLinks (some "") ["key.csv"] = ["key.csv"] ∧
    resolveLinks (some "") ["key.csv"] ≠
      [DEFAULT_PROXY_URL ++ "/file/" ++ "" ++ "/" ++ "key.csv"] := by
  constructor
  · rfl
  · decide

/-- C4 amended: locator resolution returns the list unchanged when the
bucket is absent **or empty**, and for every non-empty bucket `b` rewrites
each locator `l` to exactly `<proxy>/file/<b>/<l>`, preserving length and
order. -/
theorem C4_resolution (L : List String) (b : String) (hb : b ≠ "") :
    resolveLinks none L = L ∧
    resolveLinks (some "") L = L ∧
    resolveLinks (some b) L =
      L.map (fun l => DEFAULT_PROXY_URL ++ "/file/" ++ b ++ "/" ++ l) ∧
    (resolveLinks (some b) L).length = L.length := by
  refine ⟨rfl, rfl, ?_, ?_⟩
  · simp [resolveLinks, hb]
  · rw [resolveLinks_length]

/-- C4 amended, witness at a concrete bucket and locator list. -/
theorem C4_witness :
    resolveLinks none ["test.tar.gz"] = ["test.tar.gz"] ∧
    resolveLinks (some "") ["test.tar.gz"] = ["test.tar.gz"] ∧
    resolveLinks (some "tornado-data") ["test.tar.gz"] =
      ["test.tar.gz"].map (fun l => DEFAULT_PROXY_URL ++ "/file/" ++ "tornado-data" ++ "/" ++ l) ∧
    (resolveLinks (some "tornado-data") ["test.tar.gz"]).length =
      (["test.tar.gz"] : List String).length :=
  C4_resolution ["test.tar.gz"] "tornado-data" (by decide)

/-- C5: when the `aria2c` executable is not discoverable, `download`
raises the dependency error from `_check_dependency` before any I/O —
the event trace is empty, so no temp file is created and nothing else is
written. -/
theorem C5_dependency_missing (w : DlWorld) (links : List String)
    (bucket output_dir : Option String) (u : Bool) (h : w.aria2cOnPath = false) :
    (download w links bucket output_dir u).result =
      Except.error (DlError.dependencyMissing "aria2c") ∧
    (download w links bucket output_dir u).events = [] := by
  constructor <;> simp [download, h]

/-- C5 witness: concrete call in an environment without aria2c. -/
theorem C5_witness :
    (download noAriaWorld ["https://example.com/a.csv"] none none true).result =
      Except.error (DlError.dependencyMissing "aria2c") ∧
    (download noAriaWorld ["https://example.com/a.csv"] none none true).events = [] :=
  C5_dependency_missing noAriaWorld ["https://example.com/a.csv"] none none true rfl

/-- C6: suffix dispatch of `Helper.unzip`.  A `.zip` path has all archive
members extracted into the output directory (one collected path per
member of `namelist()`) and the archive deleted; a `.tar.gz`/`.tgz` path
has all members extracted but only regular-file members collected, and
the archive deleted; any other suffix is passed through unchanged with no
extraction and no deletion. -/
theorem C6_extract_dispatch (fs : String → FileContent) (d p : String) :
    (∀ names, strEndsWith p ".zip" = true → fs p = FileContent.zipOk names →
      unzip fs [p] d =
        (names.map (fun n => os_path_join d n),
         (names.map (fun n => os_path_join d n)).map FsEvent.writeFile ++
           [FsEvent.removeFile p])) ∧
    (∀ members, strEndsWith p ".tar.gz" = true ∨ strEndsWith p ".tgz" = true →
      fs p = FileContent.tarOk members →
      unzip fs [p] d =
        ((members.filter (fun m => m.isfile)).map (fun m => os_path_join d m.name),
         members.map (fun m => FsEvent.writeFile (os_path_join d m.name)) ++
           [FsEvent.removeFile p])) ∧
    (strEndsWith p ".zip" = false → strEndsWith p ".tar.gz" = false →
      strEndsWith p ".tgz" = false → unzip fs [p] d = ([p], [])) := by
  refine ⟨?_, ?_, ?_⟩
  · intro names hz hfs
    simp [unzip, processFile, hz, hfs]
  · intro members harch hfs
    have hz : strEndsWith p ".zip" = false := by
      cases harch with
      | inl h => exact not_zip_of_tar p h
      | inr h => exact not_zip_of_tgz p h
    have ht : (strEndsWith p ".tar.gz" || strEndsWith p ".tgz") = true := by
      cases harch with
      | inl h => simp [h]
      | inr h => simp [h]
    simp [unzip, processFile, hz, ht, hfs]
  · intro h1 h2 h3
    simp [unzip, processFile, h1, h2, h3]

/-- C6 witness: a zip with two members, a tgz with a directory entry and
one regular file, and a plain text file, each dispatched as claimed. -/
theorem C6_witness :
    unzip archFs ["arc.zip"] "out" =
      (["out/a.txt", "out/b.txt"],
       [FsEvent.writeFile "out/a.txt", FsEvent.writeFile "out/b.txt",
        FsEvent.removeFile "arc.zip"]) ∧
    unzip archFs ["arc.tgz"] "out" =
      (["out/d/c.txt"],
       [FsEvent.writeFile "out/d", FsEvent.writeFile "out/d/c.txt",
        FsEvent.removeFile "arc.tgz"]) ∧
    unzip archFs ["notes.txt"] "out" = (["notes.txt"], []) :=
  ⟨(C6_extract_dispatch archFs "out" "arc.zip").1 ["a.txt", "b.txt"] (by decide) rfl,
   (C6_extract_dispatch archFs "out" "arc.tgz").2.1
     [{ name := "d", isfile := false }, { name := "d/c.txt", isfile := true }]
     (Or.inr (by decide)) rfl,
   (C6_extract_dispatch archFs "out" "notes.txt").2.2 (by decide) (by decide) (by decide)⟩

/-- C7: with aria2c present and the worker spawned, if the output stream
contains exactly `N = len(links)` lines with the literal marker
`Download complete:`, the engine emits exactly N progress events, the
i-th being `(i + 1, N)` — each marker advances completedCount by one and
never past totalCount — and with extraction disabled the call returns N
local paths. -/
theorem C7_progress_events (w : DlWorld) (links : List String)
    (bucket output_dir : Option String)
    (hdep : w.aria2cOnPath = true) (hp : w.popenRaises = false)
    (hN : (w.workerLines.filter hasMarker).length = links.length) :
    (download w links bucket output_dir false).progress.length = links.length ∧
    (∀ i, i < links.length →
      (download w links bucket output_dir false).progress.get? i =
        some (i + 1, links.length)) ∧
    (∀ e ∈ (download w links bucket output_dir false).progress, e.1 ≤ e.2) ∧
    ∃ paths, (download w links bucket output_dir false).result = Except.ok paths ∧
      paths.length = links.length := by
  have hlen := resolveLinks_length bucket links
  have hprog : (download w links bucket output_dir false).progress =
      progressGo (resolveLinks bucket links).length 0 w.workerLines := by
    simp [download, hdep, hp, progressTrace]
  have hres : (download w links bucket output_dir false).result =
      Except.ok ((resolveLinks bucket links).map
        (fun link => targetPath (effectiveDir w.cwd output_dir) link)) := by
    simp [download, hdep, hp]
  refine ⟨?_, ?_, ?_, ?_⟩
  · rw [hprog, progressGo_length, hN]
  · intro i hi
    rw [hprog, progressGo_get _ _ _ _ (by rw [hN]; exact hi), hlen, Nat.zero_add]
  · intro e he
    rw [hprog] at he
    obtain ⟨i, hget⟩ := List.mem_iff_get?.mp he
    obtain ⟨hlt, _⟩ := List.get?_eq_some.mp hget
    rw [progressGo_length] at hlt
    have hgi := progressGo_get (resolveLinks bucket links).length w.workerLines 0 i hlt
    have he2 := hget.symm.trans hgi
    simp only [Option.some.injEq] at he2
    rw [he2]
    rw [hN] at hlt
    simp only [hlen]
    omega
  · exact ⟨_, hres, by simp [hlen]⟩

/-- C7 witness: two locators, a worker stream with exactly two marker
lines among other chatter. -/
theorem C7_witness :
    (download markerWorld ["https://example.com/f.csv", "https://example.com/g.csv"]
        none none false).progress.length = 2 ∧
    (∀ i, i < (["https://example.com/f.csv", "https://example.com/g.csv"] : List String).length →
      (download markerWorld ["https://example.com/f.csv", "https://example.com/g.csv"]
          none none false).progress.get? i = some (i + 1, 2)) ∧
    (∀ e ∈ (download markerWorld ["https://example.com/f.csv", "https://example.com/g.csv"]
        none none false).progress, e.1 ≤ e.2) ∧
    ∃ paths, (download markerWorld ["https://example.com/f.csv", "https://example.com/g.csv"]
        none none false).result = Except.ok paths ∧ paths.length = 2 :=
  C7_progress_events markerWorld ["https://example.com/f.csv", "https://example.com/g.csv"]
    none none rfl rfl (by decide)

/-- C8 counterexample: the claim reads "the output directory — or the
current working directory when no output directory was given".  With the
present-but-empty output directory `""`, joining against the given
directory yields `"a.txt"`, but the code's truthiness test
(`output_dir if output_dir else os.getcwd()`) joins against the working
directory and returns `"/work/a.txt"`. -/
theorem C8_empty_output_dir :
    (download emptyDirWorld ["https://example.com/a.txt"] none (some "") false).result =
      Except.ok ["/work/a.txt"] ∧
    specExpectedPaths emptyDirWorld.cwd (some "")
      (resolveLinks none ["https://example.com/a.txt"]) = ["a.txt"] ∧
    (["/work/a.txt"] : List String) ≠ ["a.txt"] :=
  ⟨rfl, rfl, by decide⟩

/-- C8 amended: on zero worker exit the returned (pre-extraction) list
has one entry per locator, in locator order; each entry is the effective
directory — the given output directory when non-empty, otherwise the
current working directory — joined with the final path segment
(`os.path.basename`) of that locator's resolved URL path. -/
theorem C8_expected_paths (w : DlWorld) (links : List String)
    (bucket output_dir : Option String)
    (hdep : w.aria2cOnPath = true) (hp : w.popenRaises = false) :
    ∃ paths, (download w links bucket output_dir false).result = Except.ok paths ∧
      paths.length = links.length ∧
      ∀ i link, (resolveLinks bucket links).get? i = some link →
        paths.get? i =
          some (os_path_join (effectiveDir w.cwd output_dir) (basename (urlPath link))) := by
  refine ⟨(resolveLinks bucket links).map
      (fun link => targetPath (effectiveDir w.cwd output_dir) link), ?_, ?_, ?_⟩
  · simp [download, hdep, hp]
  · simp [resolveLinks_length]
  · intro i link hget
    rw [List.get?_map, hget]
    rfl

/-- C8 amended, witness: a two-locator batch into `data`; the entries are
the basenames of the URL paths joined under `data`. -/
theorem C8_witness :
    ∃ paths, (download pathWorld ["https://example.com/sub/f.csv", "g.csv"]
        none (some "data") false).result = Except.ok paths ∧
      paths.length = 2 ∧
      ∀ i link, (resolveLinks none ["https://example.com/sub/f.csv", "g.csv"]).get? i =
          some link →
        paths.get? i =
          some (os_path_join (effectiveDir pathWorld.cwd (some "data"))
            (basename (urlPath link))) :=
  C8_expected_paths pathWorld ["https://example.com/sub/f.csv", "g.csv"]
    none (some "data") rfl rfl

/-- C9: `unzip` is the identity with an empty filesystem event trace on
any list of paths carrying none of the recognized archive suffixes. -/
theorem C9_passthrough_identity (fs : String → FileContent) (d : String) (files : List String)
    (h : ∀ p ∈ files, strEndsWith p ".zip" = false ∧ strEndsWith p ".tar.gz" = false ∧
      strEndsWith p ".tgz" = false) :
    unzip fs files d = (files, []) := by
  induction files with
  | nil => rfl
  | cons p rest ih =>
    have hp := h p (List.mem_cons_self p rest)
    have hrest := ih (fun q hq => h q (List.mem_cons_of_mem p hq))
    simp [unzip, processFile, hp.1, hp.2.1, hp.2.2, hrest]

/-- C9 witness: two plain data files pass through untouched. -/
theorem C9_witness : unzip plainFs ["r.csv", "s.nc"] "out" = (["r.csv", "s.nc"], []) :=
  C9_passthrough_identity plainFs "out" ["r.csv", "s.nc"] (by decide)

/-- C10 (implicit): `download` does not deduplicate colliding targets —
whenever two resolved locators' URLs share the same final path segment,
the computed local paths are identical strings; with extraction disabled
the returned list still has one entry per locator, so it contains
duplicate identical entries. -/
theorem C10_basename_collision (w : DlWorld) (links : List String)
    (bucket output_dir : Option String)
    (hdep : w.aria2cOnPath = true) (hp : w.popenRaises = false)
    (i j : Nat) (li lj : String)
    (hgi : (resolveLinks bucket links).get? i = some li)
    (hgj : (resolveLinks bucket links).get? j = some lj)
    (hcol : basename (urlPath li) = basename (urlPath lj)) :
    ∃ paths, (download w links bucket output_dir false).result = Except.ok paths ∧
      paths.length = links.length ∧
      ∃ v, paths.get? i = some v ∧ paths.get? j = some v := by
  refine ⟨(resolveLinks bucket links).map
      (fun link => targetPath (effectiveDir w.cwd output_dir) link), ?_, ?_, ?_⟩
  · simp [download, hdep, hp]
  · simp [resolveLinks_length]
  · refine ⟨targetPath (effectiveDir w.cwd output_dir) li, ?_, ?_⟩
    · rw [List.get?_map, hgi]
      rfl
    · rw [List.get?_map, hgj]
      simp [targetPath, hcol]

/-- C10 witness: two distinct URLs ending in `f.txt` map to the same
local path; the returned list keeps both (identical) entries. -/
theorem C10_witness :
    ∃ paths, (download dupWorld ["https://h.com/x/f.txt", "https://h.com/y/f.txt"]
        none none false).result = Except.ok paths ∧
      paths.length = 2 ∧
      ∃ v, paths.get? 0 = some v ∧ paths.get? 1 = some v :=
  C10_basename_collision dupWorld ["https://h.com/x/f.txt", "https://h.com/y/f.txt"]
    none none rfl rfl 0 1 "https://h.com/x/f.txt" "https://h.com/y/f.txt"
    rfl rfl (by decide)

end TornadoHelper
